import Mathlib

set_option maxHeartbeats 1000000

/-!
Shallow embedding of the Block Blast game engine from src/game.js: the piece
catalog, the 8x8 grid occupancy model, placement legality, line detection and
clearing, scoring, tray lifecycle and game-over detection, together with
theorems checking the specified behaviour against this embedding.
-/

namespace BlockBlast

/-- A grid cell holds either no color (JS null) or a color string. -/
abbrev Cell := Option String

/-- Grid occupancy state (this.state), modelled as a total function from
integer coordinates; JS array indices may be any integer, and all guarded
code paths check bounds before reading or writing. -/
abbrev GridState := Int → Int → Cell

/-- One entry of the piece table: shape matrix (1 = filled, 0 = empty) and
color. -/
structure PieceDef where
  shape : List (List Nat)
  color : String
deriving DecidableEq

/-- The PIECE_DEFINITIONS table, transcribed from src/game.js. -/
def PIECE_DEFINITIONS : List (String × PieceDef) :=
  [("line3h", ⟨[[1, 1, 1]], "#00D4FF"⟩),
   ("line4h", ⟨[[1, 1, 1, 1]], "#00D4FF"⟩),
   ("line3v", ⟨[[1], [1], [1]], "#00D4FF"⟩),
   ("line4v", ⟨[[1], [1], [1], [1]], "#00D4FF"⟩),
   ("square2", ⟨[[1, 1], [1, 1]], "#FFD700"⟩),
   ("square3", ⟨[[1, 1, 1], [1, 1, 1], [1, 1, 1]], "#FFD700"⟩),
   ("lShape1", ⟨[[1, 0], [1, 0], [1, 1]], "#FF8C00"⟩),
   ("lShape2", ⟨[[1, 1, 1], [1, 0, 0]], "#FF8C00"⟩),
   ("lShape3", ⟨[[1, 1], [0, 1], [0, 1]], "#FF8C00"⟩),
   ("lShape4", ⟨[[0, 0, 1], [1, 1, 1]], "#FF8C00"⟩),
   ("tShape1", ⟨[[1, 1, 1], [0, 1, 0]], "#B388FF"⟩),
   ("tShape2", ⟨[[0, 1], [1, 1], [0, 1]], "#B388FF"⟩),
   ("tShape3", ⟨[[0, 1, 0], [1, 1, 1]], "#B388FF"⟩),
   ("tShape4", ⟨[[1, 0], [1, 1], [1, 0]], "#B388FF"⟩),
   ("zShape1", ⟨[[1, 1, 0], [0, 1, 1]], "#FF5252"⟩),
   ("zShape2", ⟨[[0, 1], [1, 1], [1, 0]], "#FF5252"⟩),
   ("sShape1", ⟨[[0, 1, 1], [1, 1, 0]], "#00E676"⟩),
   ("sShape2", ⟨[[1, 0], [1, 1], [0, 1]], "#00E676"⟩)]

/-- PIECE_TYPES: the list of piece type names, for random selection. -/
def PIECE_TYPES : List String := PIECE_DEFINITIONS.map Prod.fst

/-- A piece instance: type key, shape matrix and color. -/
structure Piece where
  type : String
  shape : List (List Nat)
  color : String
deriving DecidableEq

/-- The Piece constructor: succeeds only for a type in the catalog (the JS
constructor throws for an unknown type, modelled as none). -/
def Piece.make (t : String) : Option Piece :=
  match PIECE_DEFINITIONS.lookup t with
  | some d => some ⟨t, d.shape, d.color⟩
  | none => none

/-- this.rows = this.shape.length -/
def Piece.rows (p : Piece) : Nat := p.shape.length

/-- this.cols = this.shape[0].length -/
def Piece.cols (p : Piece) : Nat := (p.shape.headD []).length

/-- Entry of the shape matrix at (row, col), 0 outside the matrix. -/
def Piece.shapeAt (p : Piece) (row col : Nat) : Nat :=
  (p.shape.getD row []).getD col 0

/-- Piece.getFilledCells: the row-major list of offsets (row, col) at which
the shape matrix holds 1. -/
def Piece.getFilledCells (p : Piece) : List (Nat × Nat) :=
  (List.range p.rows).flatMap fun row =>
    (List.range p.cols).filterMap fun col =>
      if p.shapeAt row col = 1 then some (row, col) else none

/-- The random index Math.floor(Math.random() * PIECE_TYPES.length), with
the random draw r from [0, 1) passed explicitly as a rational. -/
def Piece.randomIndex (r : ℚ) : Nat :=
  (Int.floor (r * (PIECE_TYPES.length : ℚ))).toNat

/-- Piece.createRandom, parametrized by the random draw r. -/
def Piece.createRandom (r : ℚ) : Option Piece :=
  Piece.make (PIECE_TYPES.getD (Piece.randomIndex r) "")

namespace Grid

/-- Grid dimensions: the game constructs new Grid(8). -/
def size : Nat := 8

/-- createEmptyState: every cell null. -/
def createEmptyState : GridState := fun _ _ => none

/-- isValidCell: row and col both within [0, size). -/
def isValidCell (row col : Int) : Bool :=
  decide (0 ≤ row) && decide (row < (size : Int)) &&
    decide (0 ≤ col) && decide (col < (size : Int))

/-- isCellEmpty: in bounds and holding null. -/
def isCellEmpty (g : GridState) (row col : Int) : Bool :=
  isValidCell row col && (g row col).isNone

/-- setCell: fill a cell with a color when in bounds, otherwise leave the
state unchanged. -/
def setCell (g : GridState) (row col : Int) (color : String) : GridState :=
  if isValidCell row col then
    fun r c => if r = row ∧ c = col then some color else g r c
  else g

/-- clearCell: set a cell to null when in bounds, otherwise leave the state
unchanged. -/
def clearCell (g : GridState) (row col : Int) : GridState :=
  if isValidCell row col then
    fun r c => if r = row ∧ c = col then none else g r c
  else g

/-- canPlacePiece: every filled cell of the piece, translated by the anchor,
must be in bounds and land on a null cell. -/
def canPlacePiece (g : GridState) (piece : Piece) (gridRow gridCol : Int) : Bool :=
  piece.getFilledCells.all fun cell =>
    isValidCell (gridRow + cell.1) (gridCol + cell.2) &&
      (g (gridRow + cell.1) (gridCol + cell.2)).isNone

/-- findCompleteRows: indices of rows whose size cells are all non-null. -/
def findCompleteRows (g : GridState) : List Nat :=
  (List.range size).filter fun row =>
    (List.range size).all fun col => (g row col).isSome

/-- findCompleteCols: indices of columns whose size cells are all non-null. -/
def findCompleteCols (g : GridState) : List Nat :=
  (List.range size).filter fun col =>
    (List.range size).all fun row => (g row col).isSome

/-- Insertion into the JS Set of cell keys: keeps the first occurrence and
preserves insertion order. -/
def insertCell (acc : List (Nat × Nat)) (cell : Nat × Nat) : List (Nat × Nat) :=
  if cell ∈ acc then acc else acc ++ [cell]

/-- getCellsToClear: the deduplicated union of every cell of each complete
row and every cell of each complete column, in Set insertion order. -/
def getCellsToClear (rows cols : List Nat) : List (Nat × Nat) :=
  ((rows.flatMap fun row => (List.range size).map fun col => (row, col)) ++
    (cols.flatMap fun col => (List.range size).map fun row => (row, col))).foldl
    insertCell []

/-- clearCells: set each listed cell to null (the source writes the state
array directly, without a bounds check). -/
def clearCells (g : GridState) (cells : List (Nat × Nat)) : GridState :=
  cells.foldl
    (fun acc cell =>
      fun r c => if r = (cell.1 : Int) ∧ c = (cell.2 : Int) then none else acc r c)
    g

end Grid

/-- The mutable game state of the Game class that the engine logic touches:
grid occupancy, score, tray slots (null = already placed) and flags. -/
structure GameState where
  grid : GridState
  score : Nat
  trayPieces : List (Option Piece)
  isGameOver : Bool
  isAnimating : Bool

namespace Game

/-- Step 1 of placePiece: fill the grid cells with the piece color through
Grid.setCell. -/
def fillCells (g : GridState) (piece : Piece) (gridRow gridCol : Int) : GridState :=
  piece.getFilledCells.foldl
    (fun acc cell => Grid.setCell acc (gridRow + cell.1) (gridCol + cell.2) piece.color)
    g

/-- calculateLineBonus: quadratic combo bonus 500 * n * n. -/
def calculateLineBonus (lineCount : Nat) : Nat := 500 * lineCount * lineCount

/-- checkAndClearLines: detect complete lines, clear their deduplicated
union and award the combo bonus; returns the new grid and score. -/
def checkAndClearLines (g : GridState) (score : Nat) : GridState × Nat :=
  let completeRows := Grid.findCompleteRows g
  let completeCols := Grid.findCompleteCols g
  let totalLines := completeRows.length + completeCols.length
  if totalLines = 0 then (g, score)
  else
    let cellsToClear := Grid.getCellsToClear completeRows completeCols
    (Grid.clearCells g cellsToClear, score + calculateLineBonus totalLines)

/-- removePieceFromTray: null out the slot, keeping the array structure so
the other indices are preserved. -/
def removePieceFromTray (tray : List (Option Piece)) (index : Nat) : List (Option Piece) :=
  tray.set index none

/-- generateTrayPieces, with the three createRandom draws passed explicitly. -/
def generateTrayPieces (f1 f2 f3 : Piece) : List (Option Piece) :=
  [some f1, some f2, some f3]

/-- checkAndRefillTray: regenerate all three slots iff every slot is null. -/
def checkAndRefillTray (tray : List (Option Piece)) (f1 f2 f3 : Piece) :
    List (Option Piece) :=
  if tray.all fun piece => piece.isNone then generateTrayPieces f1 f2 f3 else tray

/-- canPieceFitAnywhere: search every anchor with row in [0, size - rows]
and col in [0, size - cols]; an empty range when the piece is larger than
the grid. -/
def canPieceFitAnywhere (g : GridState) (piece : Piece) : Bool :=
  let maxRow : Int := (Grid.size : Int) - piece.rows
  let maxCol : Int := (Grid.size : Int) - piece.cols
  (List.range (maxRow + 1).toNat).any fun row =>
    (List.range (maxCol + 1).toNat).any fun col =>
      Grid.canPlacePiece g piece row col

/-- checkGameOver: true iff no non-null tray piece fits anywhere. -/
def checkGameOver (g : GridState) (tray : List (Option Piece)) : Bool :=
  tray.all fun slot =>
    match slot with
    | none => true
    | some piece => ! canPieceFitAnywhere g piece

/-- placePiece: the placement orchestration of Game.placePiece, in the
logical order of the source: fill cells, remove the tray piece, award
placement points, clear completed lines and award the bonus, refill the
tray if depleted, then evaluate game over on the resulting grid and tray. -/
def placePiece (s : GameState) (piece : Piece) (gridRow gridCol : Int)
    (trayIndex : Nat) (f1 f2 f3 : Piece) : GameState :=
  let filledCells := piece.getFilledCells
  let g1 := fillCells s.grid piece gridRow gridCol
  let tray1 := removePieceFromTray s.trayPieces trayIndex
  let score1 := s.score + filledCells.length * 10
  let cleared := checkAndClearLines g1 score1
  let tray2 := checkAndRefillTray tray1 f1 f2 f3
  { grid := cleared.1
    score := cleared.2
    trayPieces := tray2
    isGameOver := if checkGameOver cleared.1 tray2 then true else s.isGameOver
    isAnimating := false }

end Game

/-- The drop decision of DragController.handlePointerUp: only a drop that
lands on a grid position and passes canPlacePiece reaches Game.placePiece;
any other drop leaves the game state unchanged. -/
def DragController.handlePointerUp (s : GameState) (piece : Piece)
    (gridPos : Option (Int × Int)) (trayIndex : Nat) (f1 f2 f3 : Piece) : GameState :=
  match gridPos with
  | none => s
  | some pos =>
    if Grid.canPlacePiece s.grid piece pos.1 pos.2 then
      Game.placePiece s piece pos.1 pos.2 trayIndex f1 f2 f3
    else s

/-- Clockwise quarter-turn of a shape matrix. -/
def rot90 (s : List (List Nat)) : List (List Nat) := s.transpose.map List.reverse

/-- The four clockwise rotations of a shape, the shape itself first. -/
def rots4 (s : List (List Nat)) : List (List (List Nat)) :=
  [s, rot90 s, rot90 (rot90 s), rot90 (rot90 (rot90 s))]

/-- The two distinct rotations of a 180-degree-symmetric shape. -/
def rots2 (s : List (List Nat)) : List (List (List Nat)) := [s, rot90 s]

/-- A horizontal line shape of length n. -/
def hline (n : Nat) : List (List Nat) := [List.replicate n 1]

/-- A vertical line shape of length n. -/
def vline (n : Nat) : List (List Nat) := List.replicate n [1]

/-- A full square shape of side n. -/
def squareShape (n : Nat) : List (List Nat) :=
  List.replicate n (List.replicate n 1)

/-- The line3h piece instance. -/
def line3hPiece : Piece := ⟨"line3h", [[1, 1, 1]], "#00D4FF"⟩

/-- A grid whose only occupied cell is (0, 0). -/
def oneCellGrid : GridState := Grid.setCell Grid.createEmptyState 0 0 "#FF5252"

/-- A game state over oneCellGrid with one tray piece, used in concrete
placement checks. -/
def testState : GameState :=
  { grid := oneCellGrid
    score := 0
    trayPieces := [some line3hPiece, none, none]
    isGameOver := false
    isAnimating := false }

/-- A grid with every cell occupied. -/
def fullGrid : GridState := fun _ _ => some "#FFD700"

/-!
Helper lemmas about the embedded operations, shared by the claim theorems.
-/

/-- Membership in getFilledCells is exactly the shape predicate. -/
lemma mem_getFilledCells (p : Piece) (dr dc : Nat) :
    (dr, dc) ∈ p.getFilledCells ↔ dr < p.rows ∧ dc < p.cols ∧ p.shapeAt dr dc = 1 := by
  simp only [Piece.getFilledCells, List.mem_flatMap, List.mem_filterMap, List.mem_range]
  constructor
  · rintro ⟨a, ha, b, hb, hab⟩
    by_cases h : p.shapeAt a b = 1
    · rw [if_pos h] at hab
      obtain ⟨rfl, rfl⟩ := Prod.mk.injEq .. ▸ Option.some.injEq .. ▸ hab
      exact ⟨ha, hb, h⟩
    · rw [if_neg h] at hab
      exact absurd hab (by simp)
  · rintro ⟨h1, h2, h3⟩
    exact ⟨dr, h1, dc, h2, by rw [if_pos h3]⟩

/-- Folding the Set insertion over a cell list collects exactly the union of
the accumulator and the list. -/
lemma mem_foldl_insertCell (l : List (Nat × Nat)) (acc : List (Nat × Nat)) (p : Nat × Nat) :
    p ∈ l.foldl Grid.insertCell acc ↔ p ∈ acc ∨ p ∈ l := by
  induction l generalizing acc with
  | nil => simp
  | cons q l ih =>
    rw [List.foldl_cons, ih]
    unfold Grid.insertCell
    by_cases h : q ∈ acc
    · rw [if_pos h]
      constructor
      · rintro (h1 | h1)
        · exact Or.inl h1
        · exact Or.inr (List.mem_cons_of_mem _ h1)
      · rintro (h1 | h1)
        · exact Or.inl h1
        · rcases List.mem_cons.mp h1 with rfl | h2
          · exact Or.inl h
          · exact Or.inr h2
    · rw [if_neg h]
      simp [List.mem_append, List.mem_cons, or_assoc]

/-- Folding the Set insertion preserves distinctness of the collected cells. -/
lemma nodup_foldl_insertCell (l acc : List (Nat × Nat)) (h : acc.Nodup) :
    (l.foldl Grid.insertCell acc).Nodup := by
  induction l generalizing acc with
  | nil => simpa using h
  | cons q l ih =>
    rw [List.foldl_cons]
    apply ih
    unfold Grid.insertCell
    by_cases hq : q ∈ acc
    · rwa [if_pos hq]
    · rw [if_neg hq, List.nodup_append]
      refine ⟨h, List.nodup_singleton q, ?_⟩
      intro x hx hmem
      rw [List.mem_singleton] at hmem
      exact hq (hmem ▸ hx)

/-- Reading setCell back at its own in-bounds target yields the color. -/
lemma setCell_apply_self (g : GridState) (row col : Int) (color : String)
    (h : Grid.isValidCell row col = true) :
    Grid.setCell g row col color row col = some color := by
  simp [Grid.setCell, h]

/-- Reading setCell back anywhere but its target is unchanged. -/
lemma setCell_apply_other (g : GridState) (row col x y : Int) (color : String)
    (h : ¬(x = row ∧ y = col)) : Grid.setCell g row col color x y = g x y := by
  unfold Grid.setCell
  split
  · exact if_neg h
  · rfl

/-- Pointwise description of folding setCell over a list of in-bounds offsets. -/
lemma foldl_setCell_apply (color : String) (r c : Int) :
    ∀ (L : List (Nat × Nat)) (g : GridState),
      (∀ cell ∈ L, Grid.isValidCell (r + cell.1) (c + cell.2) = true) →
      ∀ x y : Int,
        L.foldl (fun acc cell => Grid.setCell acc (r + cell.1) (c + cell.2) color) g x y =
          if ∃ cell ∈ L, x = r + cell.1 ∧ y = c + cell.2 then some color else g x y := by
  intro L
  induction L with
  | nil => intro g _ x y; simp
  | cons q L ih =>
    intro g hv x y
    rw [List.foldl_cons, ih _ (fun cell hc => hv cell (List.mem_cons_of_mem _ hc))]
    by_cases h1 : ∃ cell ∈ L, x = r + cell.1 ∧ y = c + cell.2
    · rw [if_pos h1,
        if_pos (by obtain ⟨cell, hm, he⟩ := h1; exact ⟨cell, List.mem_cons_of_mem _ hm, he⟩)]
    · rw [if_neg h1]
      by_cases h2 : x = r + q.1 ∧ y = c + q.2
      · rw [if_pos ⟨q, List.mem_cons_self q L, h2⟩]
        obtain ⟨rfl, rfl⟩ := h2
        exact setCell_apply_self _ _ _ _ (hv q (List.mem_cons_self q L))
      · rw [if_neg (by
          rintro ⟨cell, hm, he⟩
          rcases List.mem_cons.mp hm with rfl | hm2
          · exact h2 he
          · exact h1 ⟨cell, hm2, he⟩)]
        exact setCell_apply_other _ _ _ _ _ _ h2

/-- The score component of checkAndClearLines: unchanged when no line is
complete, otherwise increased by the quadratic bonus. -/
lemma checkAndClearLines_snd (g : GridState) (score : Nat) :
    (Game.checkAndClearLines g score).2 =
      score +
        (if 1 ≤ (Grid.findCompleteRows g).length + (Grid.findCompleteCols g).length
         then 500 * ((Grid.findCompleteRows g).length + (Grid.findCompleteCols g).length) *
           ((Grid.findCompleteRows g).length + (Grid.findCompleteCols g).length)
         else 0) := by
  unfold Game.checkAndClearLines
  by_cases h : (Grid.findCompleteRows g).length + (Grid.findCompleteCols g).length = 0
  · simp [h]
  · rw [if_neg h, if_pos (by omega)]
    simp [Game.calculateLineBonus]

/-!
Claim theorems.
-/

/-- C1: canPlacePiece returns true iff every filled offset (dr, dc) of the
piece lands in the 8x8 bounds and on an empty cell. -/
theorem canPlacePiece_iff_spec (g : GridState) (p : Piece) (r c : Int) :
    Grid.canPlacePiece g p r c = true ↔
      ∀ dr, dr < p.rows → ∀ dc, dc < p.cols → p.shapeAt dr dc = 1 →
        Grid.isValidCell (r + dr) (c + dc) = true ∧ g (r + dr) (c + dc) = none := by
  rw [Grid.canPlacePiece, List.all_eq_true]
  constructor
  · intro h dr hdr dc hdc hsh
    have h2 := h (dr, dc) ((mem_getFilledCells p dr dc).mpr ⟨hdr, hdc, hsh⟩)
    rw [Bool.and_eq_true, Option.isNone_iff_eq_none] at h2
    exact h2
  · rintro h ⟨dr, dc⟩ hmem
    obtain ⟨h1, h2, h3⟩ := (mem_getFilledCells p dr dc).mp hmem
    rw [Bool.and_eq_true, Option.isNone_iff_eq_none]
    exact h dr h1 dc h2 h3

/-- Witness for C1 at a concrete piece and empty grid. -/
theorem canPlacePiece_iff_spec_w :
    Grid.canPlacePiece Grid.createEmptyState line3hPiece 0 0 = true :=
  (canPlacePiece_iff_spec Grid.createEmptyState line3hPiece 0 0).mpr (by decide)

/-- C2 counterexample: the engine entry point Game.placePiece does not
re-check canPlacePiece; called on a request that canPlacePiece rejects it
still mutates the board and the score. -/
theorem placePiece_no_revalidation_cex :
    Grid.canPlacePiece testState.grid line3hPiece 0 0 = false ∧
      (Game.placePiece testState line3hPiece 0 0 0 line3hPiece line3hPiece line3hPiece).score = 30 ∧
      testState.score = 0 ∧
      (Game.placePiece testState line3hPiece 0 0 0 line3hPiece line3hPiece line3hPiece).grid 0 1 =
        some "#00D4FF" ∧
      testState.grid 0 1 = none := by
  exact ⟨by decide, by decide, rfl, by decide, by decide⟩

/-- C2 (amended): the drop handler of the drag controller accepts a
placement request iff canPlacePiece holds; when it fails, or when the drop
is off the grid, the game state is returned unchanged. The engine itself
relies on this caller-side check. -/
theorem handlePointerUp_enforces_canPlace (s : GameState) (piece : Piece) (r c : Int)
    (idx : Nat) (f1 f2 f3 : Piece) :
    (Grid.canPlacePiece s.grid piece r c = false →
        DragController.handlePointerUp s piece (some (r, c)) idx f1 f2 f3 = s) ∧
    (Grid.canPlacePiece s.grid piece r c = true →
        DragController.handlePointerUp s piece (some (r, c)) idx f1 f2 f3 =
          Game.placePiece s piece r c idx f1 f2 f3) ∧
    DragController.handlePointerUp s piece none idx f1 f2 f3 = s := by
  refine ⟨fun h => ?_, fun h => ?_, rfl⟩
  · simp [DragController.handlePointerUp, h]
  · simp [DragController.handlePointerUp, h]

/-- Witness for the amended C2 at a concrete rejected drop. -/
theorem handlePointerUp_enforces_canPlace_w :
    DragController.handlePointerUp testState line3hPiece (some (0, 0)) 0 line3hPiece
      line3hPiece line3hPiece = testState :=
  (handlePointerUp_enforces_canPlace testState line3hPiece 0 0 0 line3hPiece line3hPiece
    line3hPiece).1 (by decide)

/-- C3 counterexample: the piece catalog does not contain 20 shapes. -/
theorem pieceCatalog_cex : ¬(PIECE_DEFINITIONS.length = 20) := by decide

/-- C3 (amended): the catalog holds exactly 18 pairwise-distinct canonical
shapes, composed of two horizontal and two vertical line lengths, two
square sizes, the 4 rotations of the L and T shapes and the 2 rotations of
the Z and S shapes; createRandom draws an index uniformly, each of the 18
indices arising from an interval of draws of equal length 1/18, and always
yields a catalog piece. -/
theorem pieceCatalog_spec :
    PIECE_DEFINITIONS.length = 18 ∧
    PIECE_DEFINITIONS.map (fun d => d.2.shape) =
      [hline 3, hline 4, vline 3, vline 4, squareShape 2, squareShape 3] ++
        rots4 [[1, 0], [1, 0], [1, 1]] ++ rots4 [[1, 1, 1], [0, 1, 0]] ++
        rots2 [[1, 1, 0], [0, 1, 1]] ++ rots2 [[0, 1, 1], [1, 1, 0]] ∧
    (PIECE_DEFINITIONS.map (fun d => d.2.shape)).Nodup ∧
    (∀ r : ℚ, 0 ≤ r → r < 1 → (Piece.createRandom r).isSome = true) ∧
    (∀ k : Nat, k < 18 → ∀ r : ℚ, 0 ≤ r → r < 1 →
        (Piece.randomIndex r = k ↔ (k : ℚ) / 18 ≤ r ∧ r < ((k : ℚ) + 1) / 18)) := by
  have hlen : ((PIECE_TYPES.length : ℚ)) = 18 := by norm_num [PIECE_TYPES, PIECE_DEFINITIONS]
  refine ⟨by decide, by decide, by decide, ?_, ?_⟩
  · intro r h0 h1
    have hk : Piece.randomIndex r < 18 := by
      rw [Piece.randomIndex, hlen]
      have hf : Int.floor (r * 18) < (18 : Int) := by
        rw [Int.floor_lt]
        push_cast
        linarith
      omega
    have hall : ∀ k, k < 18 → (Piece.make (PIECE_TYPES.getD k "")).isSome = true := by decide
    exact hall _ hk
  · intro k hk r h0 h1
    rw [Piece.randomIndex, hlen]
    have hfn : (0 : Int) ≤ Int.floor (r * 18) :=
      Int.floor_nonneg.mpr (by positivity)
    constructor
    · intro h
      have hf : Int.floor (r * 18) = (k : Int) := by omega
      rw [Int.floor_eq_iff] at hf
      push_cast at hf
      obtain ⟨ha, hb⟩ := hf
      constructor
      · linarith
      · linarith
    · rintro ⟨ha, hb⟩
      have hf : Int.floor (r * 18) = (k : Int) := by
        rw [Int.floor_eq_iff]
        push_cast
        constructor
        · linarith
        · linarith
      omega

/-- Witness for the amended C3 at a concrete draw. -/
theorem pieceCatalog_spec_w : (Piece.createRandom (1 / 3)).isSome = true :=
  pieceCatalog_spec.2.2.2.1 (1 / 3) (by norm_num) (by norm_num)

/-- C4: for an accepted placement the score grows by 10 per filled cell of
the piece plus, once per placement, 500 times the square of the combined
number of completed rows and columns when at least one line completes. -/
theorem placePiece_score_spec (s : GameState) (piece : Piece) (r c : Int)
    (idx : Nat) (f1 f2 f3 : Piece)
    (_hacc : Grid.canPlacePiece s.grid piece r c = true) :
    (Game.placePiece s piece r c idx f1 f2 f3).score =
      s.score + piece.getFilledCells.length * 10 +
        (if 1 ≤ (Grid.findCompleteRows (Game.fillCells s.grid piece r c)).length +
              (Grid.findCompleteCols (Game.fillCells s.grid piece r c)).length
         then 500 * ((Grid.findCompleteRows (Game.fillCells s.grid piece r c)).length +
                (Grid.findCompleteCols (Game.fillCells s.grid piece r c)).length) *
              ((Grid.findCompleteRows (Game.fillCells s.grid piece r c)).length +
                (Grid.findCompleteCols (Game.fillCells s.grid piece r c)).length)
         else 0) := by
  have h1 : (Game.placePiece s piece r c idx f1 f2 f3).score =
      (Game.checkAndClearLines (Game.fillCells s.grid piece r c)
        (s.score + piece.getFilledCells.length * 10)).2 := rfl
  rw [h1, checkAndClearLines_snd]

/-- Witness for C4 at a concrete accepted placement with no completed line. -/
theorem placePiece_score_spec_w :
    (Game.placePiece testState line3hPiece 1 0 0 line3hPiece line3hPiece line3hPiece).score = 30 :=
  (placePiece_score_spec testState line3hPiece 1 0 0 line3hPiece line3hPiece line3hPiece
    (by decide)).trans (by decide)

/-- C5: getCellsToClear is the deduplicated union of the listed full rows
and columns; every returned cell list is duplicate-free, membership is
exactly the union, and one row plus one column clear exactly 15 cells. -/
theorem getCellsToClear_spec :
    (∀ (rows cols : List Nat) (p : Nat × Nat), p ∈ Grid.getCellsToClear rows cols ↔
        (p.1 ∈ rows ∧ p.2 < 8) ∨ (p.2 ∈ cols ∧ p.1 < 8)) ∧
    (∀ rows cols : List Nat, (Grid.getCellsToClear rows cols).Nodup) ∧
    (∀ r c : Nat, r < 8 → c < 8 → (Grid.getCellsToClear [r] [c]).length = 15) := by
  refine ⟨?_, ?_, ?_⟩
  · rintro rows cols ⟨a, b⟩
    rw [Grid.getCellsToClear, mem_foldl_insertCell]
    simp only [List.not_mem_nil, false_or, List.mem_append, List.mem_flatMap,
      List.mem_map, List.mem_range, Grid.size, Prod.mk.injEq]
    constructor
    · rintro (⟨row, hrow, col, hcol, rfl, rfl⟩ | ⟨col, hcol, row, hrow, rfl, rfl⟩)
      · exact Or.inl ⟨hrow, hcol⟩
      · exact Or.inr ⟨hcol, hrow⟩
    · rintro (⟨h1, h2⟩ | ⟨h1, h2⟩)
      · exact Or.inl ⟨a, h1, b, h2, rfl, rfl⟩
      · exact Or.inr ⟨b, h1, a, h2, rfl, rfl⟩
  · intro rows cols
    exact nodup_foldl_insertCell _ _ List.nodup_nil
  · intro r c hr hc
    interval_cases r <;> interval_cases c <;> decide

/-- Witness for C5 at a concrete row and column. -/
theorem getCellsToClear_spec_w : (Grid.getCellsToClear [0] [2]).length = 15 :=
  getCellsToClear_spec.2.2 0 2 (by decide) (by decide)

/-- C6: checkGameOver reports that a legal move exists (returns false) iff
some non-null tray piece has an anchor with row between 0 and 8 minus the
piece height and col between 0 and 8 minus the piece width at which
canPlacePiece succeeds; the anchor search is exhaustive. -/
theorem checkGameOver_iff (g : GridState) (tray : List (Option Piece)) :
    Game.checkGameOver g tray = false ↔
      ∃ p : Piece, some p ∈ tray ∧ ∃ row col : Int,
        0 ≤ row ∧ row ≤ 8 - (p.rows : Int) ∧ 0 ≤ col ∧ col ≤ 8 - (p.cols : Int) ∧
        Grid.canPlacePiece g p row col = true := by
  rw [Bool.eq_false_iff]
  constructor
  · intro h
    rw [Ne, Game.checkGameOver, List.all_eq_true] at h
    push_neg at h
    obtain ⟨slot, hmem, hne⟩ := h
    match slot, hne with
    | none, hne => exact absurd rfl hne
    | some p, hne =>
      have hfit : Game.canPieceFitAnywhere g p = true := by
        cases hcf : Game.canPieceFitAnywhere g p
        · exact absurd (by simp [hcf]) hne
        · rfl
      rw [Game.canPieceFitAnywhere] at hfit
      simp only [List.any_eq_true, List.mem_range, Grid.size] at hfit
      obtain ⟨row, hrow, col, hcol, hcp⟩ := hfit
      exact ⟨p, hmem, (row : Int), (col : Int), by positivity, by omega, by positivity,
        by omega, hcp⟩
  · rintro ⟨p, hmem, row, col, h0r, hr, h0c, hc, hcp⟩
    intro hgo
    rw [Game.checkGameOver, List.all_eq_true] at hgo
    have h2 : (! Game.canPieceFitAnywhere g p) = true := hgo (some p) hmem
    have hfit : Game.canPieceFitAnywhere g p = true := by
      rw [Game.canPieceFitAnywhere]
      simp only [List.any_eq_true, List.mem_range, Grid.size]
      refine ⟨row.toNat, by omega, col.toNat, by omega, ?_⟩
      rw [Int.toNat_of_nonneg h0r, Int.toNat_of_nonneg h0c]
      exact hcp
    rw [hfit] at h2
    simp at h2

/-- Witness for C6: a tray piece that fits on the empty grid means the game
is not over. -/
theorem checkGameOver_iff_w :
    Game.checkGameOver Grid.createEmptyState [some line3hPiece] = false :=
  (checkGameOver_iff Grid.createEmptyState [some line3hPiece]).mpr
    ⟨line3hPiece, by decide, 0, 0, by decide, by decide, by decide, by decide, by decide⟩

/-- C7: in placePiece the tray seen by the game-over check is exactly the
tray after removal and conditional refill (the final tray the player
faces); the refill replaces all three slots iff every slot is null; and
removal nulls its own slot while preserving every other slot. -/
theorem tray_refill_before_gameover (s : GameState) (piece : Piece) (r c : Int)
    (idx : Nat) (f1 f2 f3 : Piece) :
    ((Game.placePiece s piece r c idx f1 f2 f3).trayPieces =
        Game.checkAndRefillTray (Game.removePieceFromTray s.trayPieces idx) f1 f2 f3) ∧
    ((Game.placePiece s piece r c idx f1 f2 f3).isGameOver =
        (Game.checkGameOver (Game.placePiece s piece r c idx f1 f2 f3).grid
            (Game.placePiece s piece r c idx f1 f2 f3).trayPieces ||
          s.isGameOver)) ∧
    (∀ t : List (Option Piece), (t.all fun q => q.isNone) = true →
        Game.checkAndRefillTray t f1 f2 f3 = [some f1, some f2, some f3]) ∧
    (∀ t : List (Option Piece), (t.all fun q => q.isNone) = false →
        Game.checkAndRefillTray t f1 f2 f3 = t) ∧
    (∀ j, j ≠ idx → (Game.removePieceFromTray s.trayPieces idx)[j]? = s.trayPieces[j]?) ∧
    (idx < s.trayPieces.length →
        (Game.removePieceFromTray s.trayPieces idx)[idx]? = some none) := by
  refine ⟨rfl, ?_, ?_, ?_, ?_, ?_⟩
  · rw [show (Game.placePiece s piece r c idx f1 f2 f3).isGameOver =
        (if Game.checkGameOver (Game.placePiece s piece r c idx f1 f2 f3).grid
            (Game.placePiece s piece r c idx f1 f2 f3).trayPieces
         then true else s.isGameOver) from rfl]
    cases Game.checkGameOver (Game.placePiece s piece r c idx f1 f2 f3).grid
        (Game.placePiece s piece r c idx f1 f2 f3).trayPieces <;> simp
  · intro t ht
    simp [Game.checkAndRefillTray, Game.generateTrayPieces, ht]
  · intro t ht
    simp [Game.checkAndRefillTray, ht]
  · intro j hj
    exact List.getElem?_set_ne (Ne.symm hj)
  · intro hlt
    exact List.getElem?_set_self hlt

/-- Witness for C7 at concrete trays and indices. -/
theorem tray_refill_before_gameover_w :
    Game.checkAndRefillTray [none, none, none] line3hPiece line3hPiece line3hPiece =
      [some line3hPiece, some line3hPiece, some line3hPiece] ∧
    (Game.removePieceFromTray testState.trayPieces 0)[0]? = some none ∧
    (Game.removePieceFromTray testState.trayPieces 0)[1]? = testState.trayPieces[1]? :=
  ⟨(tray_refill_before_gameover testState line3hPiece 0 0 0 line3hPiece line3hPiece
      line3hPiece).2.2.1 [none, none, none] (by decide),
   (tray_refill_before_gameover testState line3hPiece 0 0 0 line3hPiece line3hPiece
      line3hPiece).2.2.2.2.2 (by decide),
   (tray_refill_before_gameover testState line3hPiece 0 0 0 line3hPiece line3hPiece
      line3hPiece).2.2.2.2.1 1 (by decide)⟩

/-- C8: under the canPlacePiece precondition, filling the piece cells sets
exactly the translated filled offsets to the piece color and leaves every
other cell with its previous value. -/
theorem fillCells_frame (g : GridState) (p : Piece) (r c : Int)
    (h : Grid.canPlacePiece g p r c = true) :
    ∀ x y : Int, Game.fillCells g p r c x y =
      if ∃ cell ∈ p.getFilledCells, x = r + cell.1 ∧ y = c + cell.2
      then some p.color else g x y := by
  intro x y
  unfold Game.fillCells
  apply foldl_setCell_apply
  intro cell hc
  have h2 := List.all_eq_true.mp h cell hc
  rw [Bool.and_eq_true] at h2
  exact h2.1

/-- Witness for C8 at a concrete placement and cell. -/
theorem fillCells_frame_w :
    Game.fillCells Grid.createEmptyState line3hPiece 0 0 0 1 = some "#00D4FF" :=
  (fillCells_frame Grid.createEmptyState line3hPiece 0 0 (by decide) 0 1).trans (by decide)

/-- C9: a row (resp. column) index is reported complete iff it is in range
and all 8 of its cells are non-empty regardless of color, and the reported
indices are strictly ascending. -/
theorem findCompleteLines_spec (g : GridState) :
    (∀ r, r ∈ Grid.findCompleteRows g ↔ r < 8 ∧ ∀ c : Nat, c < 8 → (g r c).isSome = true) ∧
    (∀ c, c ∈ Grid.findCompleteCols g ↔ c < 8 ∧ ∀ r : Nat, r < 8 → (g r c).isSome = true) ∧
    (Grid.findCompleteRows g).Pairwise (· < ·) ∧
    (Grid.findCompleteCols g).Pairwise (· < ·) := by
  refine ⟨fun r => ?_, fun c => ?_, ?_, ?_⟩
  · simp [Grid.findCompleteRows, Grid.size, List.mem_filter, List.all_eq_true]
  · simp [Grid.findCompleteCols, Grid.size, List.mem_filter, List.all_eq_true]
  · exact (List.pairwise_lt_range 8).sublist (List.filter_sublist _)
  · exact (List.pairwise_lt_range 8).sublist (List.filter_sublist _)

/-- Witness for C9 on the fully occupied grid. -/
theorem findCompleteLines_spec_w : 0 ∈ Grid.findCompleteRows fullGrid :=
  ((findCompleteLines_spec fullGrid).1 0).mpr ⟨by decide, fun _ _ => rfl⟩

/-- C10: setCell and clearCell are total; on any out-of-bounds index,
including negative ones, they return the grid state unchanged. -/
theorem setCell_clearCell_out_of_bounds (g : GridState) (row col : Int) (color : String)
    (h : Grid.isValidCell row col = false) :
    Grid.setCell g row col color = g ∧ Grid.clearCell g row col = g := by
  constructor <;> simp [Grid.setCell, Grid.clearCell, h]

/-- Witness for C10 at a negative row index. -/
theorem setCell_clearCell_out_of_bounds_w :
    Grid.setCell Grid.createEmptyState (-1) 0 "#00D4FF" = Grid.createEmptyState ∧
      Grid.clearCell Grid.createEmptyState (-1) 0 = Grid.createEmptyState :=
  setCell_clearCell_out_of_bounds Grid.createEmptyState (-1) 0 "#00D4FF" (by decide)

end BlockBlast
